import Mathlib

/-!
Verification of the generic long-running-operation poller of the doc2x
client library (package `client`): the `waitWithPolling` loop, its
transient-error classifier `isTransientError`, the deadline wrapper
`withProcessingTimeout`, and the two domain evaluators passed to the
poller by `WaitForParsing` and `WaitForConversion`.

The Go code is shallowly embedded:
* Go `error` values reaching `isTransientError` are modelled by `GoError`,
  a record of the observations the classifier makes on an error
  (`errors.Is(err, context.Canceled)`, `errors.Is(err, context.DeadlineExceeded)`,
  `errors.As(err, &netErr)` with the resulting `Timeout()`/`Temporary()`
  answers, and `errors.As(err, &tempErr)` with the resulting `Temporary()`
  answer); `nil` is `Option.none`.
* The polling loop is a fuel-indexed recursive function over a *script*:
  `fetch i` is what the i-th call of the injected fetch function returns,
  and `wait i` is what the i-th call of `waitForNextPoll` observes
  (`none` = the ticker fired, `some cause` = the context was
  cancelled / its deadline expired, with the given cause).
* Durations (`time.Duration`) are integers counting nanoseconds.
The run function additionally reports the number of fetch calls made and
the value of the local `retriesLeft` counter at the moment of return,
so that the retry-budget claims are directly observable.
-/

namespace Doc2x

/-- Milliseconds-free nanosecond durations: Go `time.Second`. -/
def Second : Int := 1000000000

/-- Go `time.Minute`. -/
def Minute : Int := 60 * Second

/-- `ProcessingTimeout = 5 * time.Minute` from the constants file. -/
def ProcessingTimeout : Int := 5 * Minute

/-- `transientFetchRetryBudget = 3` from the polling file. -/
def transientFetchRetryBudget : Nat := 3

/-- Model of a non-nil Go `error` as seen by `isTransientError`: the
answers of the four observations the classifier performs. `asNet` is
`some (timeout, temporary)` when `errors.As(err, &netErr)` succeeds and
the matched `net.Error` answers `Timeout() = timeout` and
`Temporary() = temporary`; `asTemporary` is `some b` when
`errors.As(err, &tempErr)` succeeds for the `interface { Temporary() bool }`
target with answer `b`. -/
structure GoError where
  isCanceled : Bool
  isDeadlineExceeded : Bool
  asNet : Option (Bool × Bool)
  asTemporary : Option Bool
deriving DecidableEq, Repr

/-- `isTransientError` from the polling file, on a possibly-nil error. -/
def isTransientError : Option GoError → Bool
  | none => false
  | some e =>
    if e.isCanceled || e.isDeadlineExceeded then false
    else
      match e.asNet with
      | some (timeout, temporary) => timeout || temporary
      | none =>
        match e.asTemporary with
        | some temporary => temporary
        | none => false

/-- A cause for context termination: `ctx.Err()` is either
`context.Canceled` or `context.DeadlineExceeded`. -/
inductive CtxCause where
  | canceled
  | deadlineExceeded
deriving DecidableEq, Repr

/-- Terminal outcome of one `waitWithPolling` invocation. -/
inductive PollResult (T : Type) where
  | success (result : T)
  | fetchErr (e : GoError)
  | evalErr (msg : String)
  | waitErr (operation : String) (cause : CtxCause)
deriving DecidableEq, Repr

/-- The `for` loop of `waitWithPolling`, embedded with fuel.
`fetch i` / `wait i` script the i-th fetch call and the i-th
`waitForNextPoll` call; `n` counts fetch calls already made and
`retriesLeft` is the loop's local retry counter. On return the result is
paired with the total number of fetch calls made and the value of
`retriesLeft` at the point of return; `none` means the fuel ran out
before the loop returned. -/
def pollLoop {T : Type} (fetch : Nat → Except GoError T)
    (evaluate : T → Bool × Option String) (wait : Nat → Option CtxCause)
    (operation : String) : Nat → Nat → Nat → Option (Nat × Nat × PollResult T)
  | 0, _, _ => none
  | fuel + 1, n, retriesLeft =>
    match fetch n with
    | .error e =>
      if 0 < retriesLeft ∧ isTransientError (some e) = true then
        match wait n with
        | some cause => some (n + 1, retriesLeft - 1, .waitErr operation cause)
        | none => pollLoop fetch evaluate wait operation fuel (n + 1) (retriesLeft - 1)
      else
        some (n + 1, retriesLeft, .fetchErr e)
    | .ok result =>
      match evaluate result with
      | (_, some evalErr) => some (n + 1, transientFetchRetryBudget, .evalErr evalErr)
      | (true, none) => some (n + 1, transientFetchRetryBudget, .success result)
      | (false, none) =>
        match wait n with
        | some cause => some (n + 1, transientFetchRetryBudget, .waitErr operation cause)
        | none => pollLoop fetch evaluate wait operation fuel (n + 1) transientFetchRetryBudget

/-- `waitWithPolling`'s loop entered with the initial retry budget. -/
def waitWithPollingRun {T : Type} (fetch : Nat → Except GoError T)
    (evaluate : T → Bool × Option String) (wait : Nat → Option CtxCause)
    (operation : String) (fuel : Nat) : Option (Nat × Nat × PollResult T) :=
  pollLoop fetch evaluate wait operation fuel 0 transientFetchRetryBudget

/-- A Go `context.Context` as far as deadlines are concerned: the answer
of `ctx.Deadline()`, an absolute time in nanoseconds when present. -/
structure Ctx where
  deadline : Option Int
deriving DecidableEq, Repr

/-- `withProcessingTimeout` from the polling file: wraps the context with
the provided timeout if it lacks a deadline (`context.WithTimeout` sets
the deadline to `now + timeout`; the returned cancel function is not
modelled). -/
def withProcessingTimeout (ctx : Ctx) (now : Int) (timeout : Int) : Ctx :=
  if ctx.deadline.isSome then ctx
  else
    let timeout := if timeout ≤ 0 then ProcessingTimeout else timeout
    { deadline := some (now + timeout) }

/-- The poll-interval normalization at the top of `waitWithPolling`:
`if pollInterval <= 0 { pollInterval = 2 * time.Second }`. The resulting
interval is the one handed to the ticker used by every tick wait of the
invocation. -/
def normalizedPollInterval (pollInterval : Int) : Int :=
  if pollInterval ≤ 0 then 2 * Second else pollInterval

/-- Go constant `ParseStatusSuccess` (the `ParseStatus` string type). -/
def ParseStatusSuccess : String := "success"

/-- Go constant `ParseStatusFailed`. -/
def ParseStatusFailed : String := "failed"

/-- Go constant `ParseStatusProcessing`. -/
def ParseStatusProcessing : String := "processing"

/-- Go constant `ConvertStatusSuccess` (the `ConvertStatus` string type). -/
def ConvertStatusSuccess : String := "success"

/-- Go constant `ConvertStatusFailed`. -/
def ConvertStatusFailed : String := "failed"

/-- Go constant `ConvertStatusProcessing`. -/
def ConvertStatusProcessing : String := "processing"

/-- One page of the parse result payload in `StatusResponse`. -/
structure ParsePage where
  URL : String
  PageIdx : Int
  PageWidth : Int
  PageHeight : Int
  Md : String
deriving DecidableEq, Repr

/-- The `Result` payload inside `StatusResponse.Data` (a nil-able pointer
in Go, hence wrapped in `Option` at its use site). -/
structure ParseResultPayload where
  Version : String
  Pages : List ParsePage
deriving DecidableEq, Repr

/-- The pointee of `StatusResponse.Data`, a nil-able pointer to an
anonymous struct in Go. -/
structure StatusData where
  Progress : Int
  Status : String
  Detail : String
  Result : Option ParseResultPayload
deriving DecidableEq, Repr

/-- `StatusResponse`: the parsing status response. `Data` is a pointer in
Go and may be nil, hence `Option`. -/
structure StatusResponse where
  TraceID : String
  Code : String
  Msg : String
  Data : Option StatusData
deriving DecidableEq, Repr

/-- The `Data` field of `ConvertResultResponse` (a plain struct value in
Go, never nil). -/
structure ConvertResultData where
  Status : String
  URL : String
deriving DecidableEq, Repr

/-- `ConvertResultResponse`: the conversion result query response. -/
structure ConvertResultResponse where
  TraceID : String
  Code : String
  Msg : String
  Data : ConvertResultData
deriving DecidableEq, Repr

/-- The evaluator closure `WaitForParsing` passes to `waitWithPolling`:
nil `Data` keeps polling; `success` is done; `failed` is an error built
from `Detail` (defaulting to "unknown error") and the trace id; any
other status keeps polling. -/
def parsingEvaluate (status : StatusResponse) : Bool × Option String :=
  match status.Data with
  | none => (false, none)
  | some d =>
    if d.Status = ParseStatusSuccess then (true, none)
    else if d.Status = ParseStatusFailed then
      let detail := if d.Detail = "" then "unknown error" else d.Detail
      (false, some ("parse failed: " ++ detail ++ " (trace-id: " ++ status.TraceID ++ ")"))
    else (false, none)

/-- The evaluator closure `WaitForConversion` passes to `waitWithPolling`:
`success` with an empty download URL is a hard error; `success` with a
URL is done; `failed` is an error naming the uid and trace id; any other
status keeps polling. -/
def conversionEvaluate (uid : String) (result : ConvertResultResponse) : Bool × Option String :=
  if result.Data.Status = ConvertStatusSuccess then
    if result.Data.URL = "" then
      (false, some "conversion succeeded but no download URL provided")
    else (true, none)
  else if result.Data.Status = ConvertStatusFailed then
    (false, some ("conversion failed for UID " ++ uid ++ " (trace-id: " ++ result.TraceID ++ ")"))
  else (false, none)

/-- A transient error: a `net.Error` reporting both timeout and
temporary, not matching cancellation or deadline-exceeded. -/
def transientErrExample : GoError :=
  { isCanceled := false, isDeadlineExceeded := false
    asNet := some (true, true), asTemporary := some true }

/-- A permanent error: matches none of the classifier's probes (for
example an authentication failure or a non-success API status code). -/
def permanentErrExample : GoError :=
  { isCanceled := false, isDeadlineExceeded := false
    asNet := none, asTemporary := none }

/-- A fetch script that always fails with the permanent error. -/
def permFetchScript : Nat → Except GoError Unit := fun _ => .error permanentErrExample

/-- A fetch script that always fails with the transient error. -/
def transientFetchScript : Nat → Except GoError Unit := fun _ => .error transientErrExample

/-- A fetch script that always succeeds. -/
def okFetchScript : Nat → Except GoError Unit := fun _ => .ok ()

/-- A fetch script with two transient failures, then success. -/
def twoTransientThenOkScript : Nat → Except GoError Unit := fun i =>
  if i < 2 then .error transientErrExample else .ok ()

/-- A fetch script that succeeds only on its second call (index 1) and
fails transiently everywhere else. -/
def okAtOneScript : Nat → Except GoError Unit := fun i =>
  if i = 1 then .ok () else .error transientErrExample

/-- An evaluator that always keeps polling. -/
def pendingEvaluate : Unit → Bool × Option String := fun _ => (false, none)

/-- An evaluator that always declares completion. -/
def doneEvaluate : Unit → Bool × Option String := fun _ => (true, none)

/-- A wait script in which every tick wait sees the ticker fire. -/
def tickAlways : Nat → Option CtxCause := fun _ => none

/-- Claim C1 exactly as stated: every terminal value of a polling run is
an evaluator-declared success, an evaluator-declared error, a fetch
error with exhausted (zero) retry budget, or a cancellation error from a
tick wait. -/
def claimC1Statement : Prop :=
  ∀ (T : Type) (fetch : Nat → Except GoError T)
    (evaluate : T → Bool × Option String) (wait : Nat → Option CtxCause)
    (operation : String) (fuel m b : Nat) (res : PollResult T),
    waitWithPollingRun fetch evaluate wait operation fuel = some (m, b, res) →
    (∃ t, res = .success t) ∨ (∃ msg, res = .evalErr msg) ∨
      ((∃ e, res = .fetchErr e) ∧ b = 0) ∨ (∃ o c, res = .waitErr o c)

/-- Claim C4: `withProcessingTimeout` keeps an existing deadline
untouched; otherwise it imposes `now + timeout`, falling back to the
5-minute `ProcessingTimeout` when `timeout` is non-positive. -/
theorem withProcessingTimeout_spec (ctx : Ctx) (now timeout : Int) :
    (ctx.deadline.isSome = true → withProcessingTimeout ctx now timeout = ctx) ∧
    (ctx.deadline = none → 0 < timeout →
      withProcessingTimeout ctx now timeout = { deadline := some (now + timeout) }) ∧
    (ctx.deadline = none → timeout ≤ 0 →
      withProcessingTimeout ctx now timeout = { deadline := some (now + ProcessingTimeout) } ∧
        ProcessingTimeout = 5 * Minute) := by
  refine ⟨fun h => ?_, fun h hpos => ?_, fun h hnp => ⟨?_, rfl⟩⟩
  · simp [withProcessingTimeout, h]
  · simp [withProcessingTimeout, h]
    intro hle
    omega
  · simp [withProcessingTimeout, h, hnp]

/-- Witness for C4 at a concrete input: no ambient deadline and a
non-positive caller timeout yields the 5-minute default. -/
theorem withProcessingTimeout_spec_witness :
    withProcessingTimeout { deadline := none } 0 (-1) =
        { deadline := some (0 + ProcessingTimeout) } ∧
      ProcessingTimeout = 5 * Minute :=
  (withProcessingTimeout_spec { deadline := none } 0 (-1)).2.2 rfl (by decide)

/-- Claim C5: the transient classifier, clause by clause in the order the
code checks them: cancellation or deadline-exceeded is never transient;
otherwise an error matching `net.Error` is transient exactly when it
reports a timeout or temporary condition; otherwise an error exposing
`Temporary() bool` is transient exactly when that method returns true;
everything else is not transient. -/
theorem isTransientError_spec (e : GoError) :
    ((e.isCanceled = true ∨ e.isDeadlineExceeded = true) →
      isTransientError (some e) = false) ∧
    (e.isCanceled = false → e.isDeadlineExceeded = false →
      ∀ timeout temporary, e.asNet = some (timeout, temporary) →
        isTransientError (some e) = (timeout || temporary)) ∧
    (e.isCanceled = false → e.isDeadlineExceeded = false → e.asNet = none →
      e.asTemporary = some true → isTransientError (some e) = true) ∧
    (e.isCanceled = false → e.isDeadlineExceeded = false → e.asNet = none →
      (e.asTemporary = none ∨ e.asTemporary = some false) →
      isTransientError (some e) = false) := by
  refine ⟨fun h => ?_, fun h1 h2 timeout temporary hn => ?_,
    fun h1 h2 hn ht => ?_, fun h1 h2 hn ht => ?_⟩
  · rcases h with h | h <;> simp [isTransientError, h]
  · simp [isTransientError, h1, h2, hn]
  · simp [isTransientError, h1, h2, hn, ht]
  · rcases ht with ht | ht <;> simp [isTransientError, h1, h2, hn, ht]

/-- Witness for C5 at a concrete input: a deadline-exceeded error is not
transient even though it reports itself as a network timeout. -/
theorem isTransientError_spec_witness :
    isTransientError (some ⟨false, true, some (true, true), some true⟩) = false :=
  (isTransientError_spec ⟨false, true, some (true, true), some true⟩).1 (Or.inr rfl)

/-- Claim C8: a non-positive poll interval is normalized to the 2-second
default; a positive one is used unchanged. -/
theorem normalizedPollInterval_spec (p : Int) :
    (p ≤ 0 → normalizedPollInterval p = 2 * Second) ∧
    (0 < p → normalizedPollInterval p = p) := by
  constructor
  · intro h
    simp [normalizedPollInterval, h]
  · intro h
    simp [normalizedPollInterval]
    omega

/-- Witness for C8 at a concrete input: interval 0 becomes 2 seconds. -/
theorem normalizedPollInterval_spec_witness :
    normalizedPollInterval 0 = 2 * Second :=
  (normalizedPollInterval_spec 0).1 (by decide)

/-- Claim C9: the two domain evaluators disagree on successful-but-empty
payloads: the parsing evaluator keeps polling on a nil `Data` payload,
while the conversion evaluator reports a hard error on a success status
with an empty download URL. -/
theorem evaluators_disagree_on_empty_payload :
    (∀ status : StatusResponse, status.Data = none →
      parsingEvaluate status = (false, none)) ∧
    (∀ (uid : String) (result : ConvertResultResponse),
      result.Data.Status = ConvertStatusSuccess → result.Data.URL = "" →
      conversionEvaluate uid result =
        (false, some "conversion succeeded but no download URL provided")) := by
  constructor
  · intro status h
    simp [parsingEvaluate, h]
  · intro uid result hs hu
    simp [conversionEvaluate, hs, hu]

/-- Witness for C9 at concrete inputs: a parsing status with nil data
keeps polling, a conversion result with success status and empty URL is
a hard error. -/
theorem evaluators_disagree_on_empty_payload_witness :
    parsingEvaluate ⟨"t", "success", "", none⟩ = (false, none) ∧
      conversionEvaluate "uid1" ⟨"t", "success", "", ⟨ConvertStatusSuccess, ""⟩⟩ =
        (false, some "conversion succeeded but no download URL provided") :=
  ⟨evaluators_disagree_on_empty_payload.1 ⟨"t", "success", "", none⟩ rfl,
    evaluators_disagree_on_empty_payload.2 "uid1"
      ⟨"t", "success", "", ⟨ConvertStatusSuccess, ""⟩⟩ rfl rfl⟩

/-- Helper: every terminal outcome of `pollLoop` made at least one more
fetch call than had already happened at entry, and is one of: success
declared by the evaluator, an error declared by the evaluator, a fetch
error kept because the budget was zero or the error non-transient, or a
cancellation observed by some tick wait performed during the run. -/
theorem pollLoop_cases {T : Type} (fetch : Nat → Except GoError T)
    (evaluate : T → Bool × Option String) (wait : Nat → Option CtxCause)
    (operation : String) :
    ∀ (fuel n r m b : Nat) (res : PollResult T),
      pollLoop fetch evaluate wait operation fuel n r = some (m, b, res) →
      n < m ∧
        ((∃ t, res = .success t ∧ evaluate t = (true, none)) ∨
         (∃ msg, res = .evalErr msg ∧ ∃ t d, evaluate t = (d, some msg)) ∨
         (∃ e, res = .fetchErr e ∧ (b = 0 ∨ isTransientError (some e) = false)) ∨
         (∃ c, res = .waitErr operation c ∧ ∃ i, n ≤ i ∧ i < m ∧ wait i = some c)) := by
  intro fuel
  induction fuel with
  | zero =>
    intro n r m b res h
    simp [pollLoop] at h
  | succ fuel ih =>
    intro n r m b res h
    rw [pollLoop] at h
    cases hf : fetch n with
    | error e =>
      rw [hf] at h
      dsimp only at h
      by_cases hc : 0 < r ∧ isTransientError (some e) = true
      · rw [if_pos hc] at h
        cases hw : wait n with
        | some cause =>
          rw [hw] at h
          obtain ⟨hm, hb, hres⟩ : n + 1 = m ∧ r - 1 = b ∧
              PollResult.waitErr operation cause = res := by
            simpa using h
          exact ⟨by omega, Or.inr (Or.inr (Or.inr
            ⟨cause, hres.symm, n, le_refl n, by omega, hw⟩))⟩
        | none =>
          rw [hw] at h
          dsimp only at h
          obtain ⟨hlt, hd⟩ := ih (n + 1) (r - 1) m b res h
          refine ⟨by omega, ?_⟩
          rcases hd with h1 | h2 | h3 | ⟨c, hres, i, hi1, hi2, hwi⟩
          · exact Or.inl h1
          · exact Or.inr (Or.inl h2)
          · exact Or.inr (Or.inr (Or.inl h3))
          · exact Or.inr (Or.inr (Or.inr ⟨c, hres, i, by omega, hi2, hwi⟩))
      · rw [if_neg hc] at h
        obtain ⟨hm, hb, hres⟩ : n + 1 = m ∧ r = b ∧
            PollResult.fetchErr e = res := by
          simpa using h
        refine ⟨by omega, Or.inr (Or.inr (Or.inl ⟨e, hres.symm, ?_⟩))⟩
        rw [not_and_or] at hc
        rcases hc with hc | hc
        · exact Or.inl (by omega)
        · exact Or.inr (by simpa using hc)
    | ok result =>
      rw [hf] at h
      dsimp only at h
      rcases hev : evaluate result with ⟨d, oe⟩
      rw [hev] at h
      cases oe with
      | some msg =>
        have hred : n + 1 = m ∧ transientFetchRetryBudget = b ∧
            PollResult.evalErr msg = res := by
          cases d <;> simpa using h
        obtain ⟨hm, hb, hres⟩ := hred
        exact ⟨by omega, Or.inr (Or.inl ⟨msg, hres.symm, result, d, hev⟩)⟩
      | none =>
        cases d with
        | true =>
          obtain ⟨hm, hb, hres⟩ : n + 1 = m ∧ transientFetchRetryBudget = b ∧
              PollResult.success result = res := by
            simpa using h
          exact ⟨by omega, Or.inl ⟨result, hres.symm, hev⟩⟩
        | false =>
          cases hw : wait n with
          | some cause =>
            rw [hw] at h
            obtain ⟨hm, hb, hres⟩ : n + 1 = m ∧ transientFetchRetryBudget = b ∧
                PollResult.waitErr operation cause = res := by
              simpa using h
            exact ⟨by omega, Or.inr (Or.inr (Or.inr
              ⟨cause, hres.symm, n, le_refl n, by omega, hw⟩))⟩
          | none =>
            rw [hw] at h
            dsimp only at h
            obtain ⟨hlt, hd⟩ := ih (n + 1) transientFetchRetryBudget m b res h
            refine ⟨by omega, ?_⟩
            rcases hd with h1 | h2 | h3 | ⟨c, hres, i, hi1, hi2, hwi⟩
            · exact Or.inl h1
            · exact Or.inr (Or.inl h2)
            · exact Or.inr (Or.inr (Or.inl h3))
            · exact Or.inr (Or.inr (Or.inr ⟨c, hres, i, by omega, hi2, hwi⟩))

/-- Helper: a run of `d` consecutive transient fetch errors, each
followed by a successful tick wait, advances the loop by `d` fetch calls
and consumes `d` units of retry budget, provided the budget covers them. -/
theorem pollLoop_transient_streak {T : Type} (fetch : Nat → Except GoError T)
    (evaluate : T → Bool × Option String) (wait : Nat → Option CtxCause)
    (operation : String) :
    ∀ (d fuel n r : Nat), d ≤ r →
      (∀ i, i < d → ∃ e, fetch (n + i) = .error e ∧ isTransientError (some e) = true) →
      (∀ i, i < d → wait (n + i) = none) →
      pollLoop fetch evaluate wait operation (d + fuel) n r =
        pollLoop fetch evaluate wait operation fuel (n + d) (r - d) := by
  intro d
  induction d with
  | zero =>
    intro fuel n r _ _ _
    simp
  | succ d ih =>
    intro fuel n r hdr hfe hw
    obtain ⟨e, hfn, htr⟩ := hfe 0 (Nat.succ_pos d)
    have hwn := hw 0 (Nat.succ_pos d)
    rw [Nat.add_zero] at hfn hwn
    have hstep : pollLoop fetch evaluate wait operation (d + fuel + 1) n r =
        pollLoop fetch evaluate wait operation (d + fuel) (n + 1) (r - 1) := by
      rw [pollLoop, hfn]
      dsimp only
      rw [if_pos ⟨by omega, htr⟩, hwn]
    have hrw : d + 1 + fuel = d + fuel + 1 := by omega
    rw [hrw, hstep]
    have hres := ih fuel (n + 1) (r - 1) (by omega)
      (fun i hi => by
        have h2 := hfe (i + 1) (by omega)
        rwa [show n + (i + 1) = n + 1 + i by omega] at h2)
      (fun i hi => by
        have h2 := hw (i + 1) (by omega)
        rwa [show n + (i + 1) = n + 1 + i by omega] at h2)
    rw [hres, show n + 1 + d = n + (d + 1) by omega,
      show r - 1 - d = r - (d + 1) by omega]

/-- Claim C7: a non-transient fetch error on the first call is returned
immediately: exactly one fetch call, and the retry counter still holds
the full budget at the moment of return. -/
theorem permanent_error_first_fetch {T : Type} (fetch : Nat → Except GoError T)
    (evaluate : T → Bool × Option String) (wait : Nat → Option CtxCause)
    (operation : String) (fuel : Nat) (e : GoError)
    (hf : fetch 0 = .error e) (ht : isTransientError (some e) = false) :
    waitWithPollingRun fetch evaluate wait operation (fuel + 1) =
      some (1, transientFetchRetryBudget, .fetchErr e) := by
  rw [waitWithPollingRun, pollLoop, hf]
  dsimp only
  rw [if_neg (by simp [ht])]

/-- Witness for C7 at a concrete input: the always-permanent fetch
script returns after one call with the budget untouched. -/
theorem permanent_error_first_fetch_witness :
    waitWithPollingRun permFetchScript pendingEvaluate tickAlways "parsing" 1 =
      some (1, transientFetchRetryBudget, .fetchErr permanentErrExample) :=
  permanent_error_first_fetch permFetchScript pendingEvaluate tickAlways
    "parsing" 0 permanentErrExample rfl rfl

/-- Claim C2: four consecutive transient fetch errors exhaust the budget
of 3 retries: the run returns after exactly 4 fetch calls, with zero
budget left, surfacing the fourth transient error as the terminal error. -/
theorem four_transient_errors_exhaust_budget {T : Type}
    (fetch : Nat → Except GoError T) (evaluate : T → Bool × Option String)
    (wait : Nat → Option CtxCause) (operation : String) (fuel : Nat) (e3 : GoError)
    (hfe : ∀ i, i < 4 → ∃ e, fetch i = .error e ∧ isTransientError (some e) = true)
    (hw : ∀ i, i < 3 → wait i = none)
    (hf3 : fetch 3 = .error e3) :
    waitWithPollingRun fetch evaluate wait operation (3 + (fuel + 1)) =
      some (4, 0, .fetchErr e3) := by
  rw [waitWithPollingRun,
    pollLoop_transient_streak fetch evaluate wait operation 3 (fuel + 1) 0
      transientFetchRetryBudget (le_refl 3)
      (fun i hi => by simpa using hfe i (by omega))
      (fun i hi => by simpa using hw i hi)]
  rw [show (0 : Nat) + 3 = 3 by omega]
  rw [pollLoop, hf3]
  dsimp only
  rw [if_neg (fun hcon => absurd hcon.1 (by decide))]
  rfl

/-- Witness for C2 at a concrete input: the always-transient fetch
script returns after exactly four calls with the budget exhausted. -/
theorem four_transient_errors_exhaust_budget_witness :
    waitWithPollingRun transientFetchScript pendingEvaluate tickAlways
        "parsing" (3 + (0 + 1)) =
      some (4, 0, .fetchErr transientErrExample) :=
  four_transient_errors_exhaust_budget transientFetchScript pendingEvaluate
    tickAlways "parsing" 0 transientErrExample
    (fun _ _ => ⟨transientErrExample, rfl, rfl⟩) (fun _ _ => rfl) rfl

/-- Claim C6: when the first N fetch calls fail transiently (N at most
3) and the next call succeeds with the evaluator declaring completion,
the run returns that result as success after exactly N + 1 fetch calls. -/
theorem transient_prefix_then_success {T : Type}
    (fetch : Nat → Except GoError T) (evaluate : T → Bool × Option String)
    (wait : Nat → Option CtxCause) (operation : String) (N fuel : Nat) (t : T)
    (hN : N ≤ 3)
    (hfe : ∀ i, i < N → ∃ e, fetch i = .error e ∧ isTransientError (some e) = true)
    (hw : ∀ i, i < N → wait i = none)
    (hfN : fetch N = .ok t)
    (hev : evaluate t = (true, none)) :
    waitWithPollingRun fetch evaluate wait operation (N + (fuel + 1)) =
      some (N + 1, transientFetchRetryBudget, .success t) := by
  rw [waitWithPollingRun,
    pollLoop_transient_streak fetch evaluate wait operation N (fuel + 1) 0
      transientFetchRetryBudget hN
      (fun i hi => by simpa using hfe i hi)
      (fun i hi => by simpa using hw i hi)]
  rw [Nat.zero_add, pollLoop, hfN]
  dsimp only
  rw [hev]

/-- Witness for C6 at a concrete input: two transient errors then a
successful done fetch yields success after exactly three fetch calls. -/
theorem transient_prefix_then_success_witness :
    waitWithPollingRun twoTransientThenOkScript doneEvaluate tickAlways
        "parsing" (2 + (0 + 1)) =
      some (2 + 1, transientFetchRetryBudget, .success ()) :=
  transient_prefix_then_success twoTransientThenOkScript doneEvaluate tickAlways
    "parsing" 2 0 () (by omega)
    (fun i hi => ⟨transientErrExample, by simp [twoTransientThenOkScript, hi], rfl⟩)
    (fun i hi => rfl) (by simp [twoTransientThenOkScript]) rfl

/-- Claim C3: the retry budget is reset by any successful fetch: after
`k ≤ 3` transient errors (consuming `k` retries) and then a successful
fetch whose evaluation keeps polling, a new streak of transient errors
is still granted 3 further retries, the fourth being surfaced as the
terminal error at fetch call `k + 5`. -/
theorem budget_reset_after_success {T : Type}
    (fetch : Nat → Except GoError T) (evaluate : T → Bool × Option String)
    (wait : Nat → Option CtxCause) (operation : String) (k fuel : Nat) (t : T)
    (e : GoError)
    (hk : k ≤ 3)
    (hpre : ∀ i, i < k → ∃ e2, fetch i = .error e2 ∧ isTransientError (some e2) = true)
    (hfk : fetch k = .ok t)
    (hev : evaluate t = (false, none))
    (hw : ∀ i, i < k + 4 → wait i = none)
    (hpost : ∀ i, k < i → i < k + 4 →
      ∃ e2, fetch i = .error e2 ∧ isTransientError (some e2) = true)
    (hfe : fetch (k + 4) = .error e) :
    waitWithPollingRun fetch evaluate wait operation (k + fuel + 5) =
      some (k + 5, 0, .fetchErr e) := by
  rw [waitWithPollingRun, show k + fuel + 5 = k + (1 + (3 + (fuel + 1))) by omega]
  rw [pollLoop_transient_streak fetch evaluate wait operation k
    (1 + (3 + (fuel + 1))) 0 transientFetchRetryBudget hk
    (fun i hi => by simpa using hpre i hi)
    (fun i hi => by simpa using hw i (by omega))]
  rw [Nat.zero_add, show 1 + (3 + (fuel + 1)) = 3 + (fuel + 1) + 1 by omega]
  rw [pollLoop, hfk]
  dsimp only
  rw [hev]
  dsimp only
  rw [hw k (by omega)]
  dsimp only
  rw [pollLoop_transient_streak fetch evaluate wait operation 3 (fuel + 1) (k + 1)
    transientFetchRetryBudget (le_refl 3)
    (fun i hi => hpost (k + 1 + i) (by omega) (by omega))
    (fun i hi => hw (k + 1 + i) (by omega))]
  rw [show k + 1 + 3 = k + 4 by omega]
  rw [pollLoop, hfe]
  dsimp only
  rw [if_neg (fun hcon => absurd hcon.1 (by decide))]
  rfl

/-- Witness for C3 at a concrete input: one transient error, a success
at the second call that keeps polling, then transient errors: the run
ends with the budget exhausted at the sixth fetch call. -/
theorem budget_reset_after_success_witness :
    waitWithPollingRun okAtOneScript pendingEvaluate tickAlways "parsing"
        (1 + 0 + 5) =
      some (1 + 5, 0, .fetchErr transientErrExample) :=
  budget_reset_after_success okAtOneScript pendingEvaluate tickAlways "parsing"
    1 0 () transientErrExample (by omega)
    (fun i hi => ⟨transientErrExample,
      by simp [okAtOneScript, Nat.lt_one_iff.mp hi], rfl⟩)
    (by simp [okAtOneScript]) rfl (fun _ _ => rfl)
    (fun i h1 h2 => ⟨transientErrExample, by simp [okAtOneScript, ne_of_gt h1], rfl⟩)
    rfl

/-- Claim C1 as literally stated is false: a non-transient fetch error
is returned immediately while the retry budget is still at its full
value 3, so a terminal fetch error does not imply an exhausted budget. -/
theorem waitWithPolling_claimC1_counterexample : ¬ claimC1Statement := by
  intro h
  have h2 := h Unit permFetchScript pendingEvaluate tickAlways "parsing" 1 1
    transientFetchRetryBudget (.fetchErr permanentErrExample) rfl
  rcases h2 with ⟨t, ht⟩ | ⟨msg, hm⟩ | ⟨⟨e, he⟩, hb⟩ | ⟨o, c, hw⟩
  · simp at ht
  · simp at hm
  · simp [transientFetchRetryBudget] at hb
  · simp at hw

/-- Claim C1, amended: a polling run never returns a still-pending
value; it returns only on evaluator-declared success, an
evaluator-declared error, a fetch error that is non-transient or whose
retry budget is exhausted, or a cancellation observed by a tick wait. -/
theorem waitWithPolling_terminal_cases {T : Type} (fetch : Nat → Except GoError T)
    (evaluate : T → Bool × Option String) (wait : Nat → Option CtxCause)
    (operation : String) (fuel m b : Nat) (res : PollResult T)
    (h : waitWithPollingRun fetch evaluate wait operation fuel = some (m, b, res)) :
    (∃ t, res = .success t ∧ evaluate t = (true, none)) ∨
    (∃ msg, res = .evalErr msg ∧ ∃ t d, evaluate t = (d, some msg)) ∨
    (∃ e, res = .fetchErr e ∧ (b = 0 ∨ isTransientError (some e) = false)) ∨
    (∃ c, res = .waitErr operation c ∧ ∃ i, i < m ∧ wait i = some c) := by
  obtain ⟨-, hd⟩ := pollLoop_cases fetch evaluate wait operation fuel 0
    transientFetchRetryBudget m b res h
  rcases hd with h1 | h2 | h3 | ⟨c, hres, i, -, hi2, hwi⟩
  · exact Or.inl h1
  · exact Or.inr (Or.inl h2)
  · exact Or.inr (Or.inr (Or.inl h3))
  · exact Or.inr (Or.inr (Or.inr ⟨c, hres, i, hi2, hwi⟩))

/-- Witness for the amended C1 at a concrete input: the one-call
permanent-error run lands in the fetch-error case of the disjunction. -/
theorem waitWithPolling_terminal_cases_witness :
    (∃ t, PollResult.fetchErr (T := Unit) permanentErrExample = .success t ∧
      pendingEvaluate t = (true, none)) ∨
    (∃ msg, PollResult.fetchErr (T := Unit) permanentErrExample = .evalErr msg ∧
      ∃ t d, pendingEvaluate t = (d, some msg)) ∨
    (∃ e, PollResult.fetchErr (T := Unit) permanentErrExample = .fetchErr e ∧
      (transientFetchRetryBudget = 0 ∨ isTransientError (some e) = false)) ∨
    (∃ c, PollResult.fetchErr (T := Unit) permanentErrExample =
        .waitErr "parsing" c ∧ ∃ i, i < 1 ∧ tickAlways i = some c) :=
  waitWithPolling_terminal_cases permFetchScript pendingEvaluate tickAlways
    "parsing" 1 1 transientFetchRetryBudget (.fetchErr permanentErrExample) rfl

/-- Claim C10: the loop fetches before looking at the context: every
terminal outcome is preceded by at least one fetch call, a
wait-cancellation error can only come from a tick wait performed during
the run, and even with the context cancelled at entry (every tick wait
would observe cancellation) a first fetch whose evaluation declares
completion is returned as success. -/
theorem fetch_precedes_cancellation_check {T : Type} (fetch : Nat → Except GoError T)
    (evaluate : T → Bool × Option String) (operation : String) (fuel : Nat) :
    (∀ (wait : Nat → Option CtxCause) (m b : Nat) (res : PollResult T),
      waitWithPollingRun fetch evaluate wait operation fuel = some (m, b, res) →
        1 ≤ m) ∧
    (∀ (wait : Nat → Option CtxCause) (m b : Nat) (c : CtxCause),
      waitWithPollingRun fetch evaluate wait operation fuel =
          some (m, b, .waitErr operation c) →
        ∃ i, i < m ∧ wait i = some c) ∧
    (∀ (cause : CtxCause) (t : T), fetch 0 = .ok t → evaluate t = (true, none) →
      0 < fuel →
      waitWithPollingRun fetch evaluate (fun _ => some cause) operation fuel =
        some (1, transientFetchRetryBudget, .success t)) := by
  refine ⟨fun wait m b res h => ?_, fun wait m b c h => ?_,
    fun cause t hf0 hev hfuel => ?_⟩
  · exact (pollLoop_cases fetch evaluate wait operation fuel 0 _ m b res h).1
  · obtain ⟨-, hd⟩ := pollLoop_cases fetch evaluate wait operation fuel 0 _ m b _ h
    rcases hd with ⟨t, ht, -⟩ | ⟨msg, hm, -⟩ | ⟨e, he, -⟩ | ⟨c2, hres, i, -, hi2, hwi⟩
    · exact absurd ht (by simp)
    · exact absurd hm (by simp)
    · exact absurd he (by simp)
    · obtain ⟨-, rfl⟩ := PollResult.waitErr.inj hres
      exact ⟨i, hi2, hwi⟩
  · cases fuel with
    | zero => omega
    | succ f =>
      rw [waitWithPollingRun, pollLoop, hf0]
      dsimp only
      rw [hev]

/-- Witness for C10 at a concrete input: with the context cancelled at
entry, an immediately-done fetch still wins and is returned as success
after one fetch call. -/
theorem fetch_precedes_cancellation_check_witness :
    waitWithPollingRun okFetchScript doneEvaluate (fun _ => some CtxCause.canceled)
        "parsing" 1 = some (1, transientFetchRetryBudget, .success ()) :=
  (fetch_precedes_cancellation_check okFetchScript doneEvaluate "parsing" 1).2.2
    CtxCause.canceled () rfl rfl (by decide)

end Doc2x
